import Mathlib

/-!
Shallow embedding of `neo4j-redis` (src/index.js): the query builder,
the transaction protocol, and the response helpers, together with proofs
of the specified properties.

JavaScript runtime values that the code manipulates are modelled by the
inductive `JVal`; machine behaviour such as `typeof`, property access on
`undefined`, and unbound-identifier lookup is embedded explicitly where
the source exercises it.
-/

set_option maxHeartbeats 1000000

/-- JavaScript runtime values (the subset the library touches). `jnum`
carries an `Int`: every number the claims exercise is integral. -/
inductive JVal where
  | jundefined
  | jnull
  | jbool (b : Bool)
  | jnum (n : Int)
  | jstr (s : String)
  | jarr (l : List JVal)
  | jobj (fields : List (String × JVal))
deriving Repr

/-- JavaScript `typeof` on a `JVal`. Note `typeof null` and
`typeof` of any array are both `"object"`: this is what drives the
`getSimpleData` and `toProps` branch analyses below. -/
def JVal.typeofStr : JVal → String
  | .jundefined => "undefined"
  | .jnull => "object"
  | .jbool _ => "boolean"
  | .jnum _ => "number"
  | .jstr _ => "string"
  | .jarr _ => "object"
  | .jobj _ => "object"

/-- A rejection value carried by a thrown error / rejected promise. -/
inductive Rejection where
  /-- `new Error(message)` -/
  | err (message : String)
  /-- `throw json.errors` — the raw error array is thrown as a value. -/
  | thrownValue (v : List JVal)
  /-- `ReferenceError: <name> is not defined` from an unbound identifier. -/
  | refError (name : String)
  /-- `TypeError` from reading a property of `undefined` or `null`. -/
  | typeError (msg : String)
deriving Repr

/-! ## QueryBuilder (src/index.js lines 14-45) -/

/-- Arguments accepted by `QueryBuilder.add`: a string fragment or an
array of such arguments (`partial.constructor === Array` discriminates). -/
inductive QVal where
  | str (s : String)
  | arr (l : List QVal)
deriving Repr

mutual
/-- `QueryBuilder.add` (lines 24-32). An array argument is walked with
`forEach((element) => this.add(element))`, i.e. `add` recurses into each
element, so nested arrays are flattened to arbitrary depth; any
non-array argument is pushed onto `q` unchanged, with no validation. -/
def QueryBuilder.add (q : List QVal) : QVal → List QVal
  | .str s => q ++ [.str s]
  | .arr l => QueryBuilder.addList q l

/-- The `forEach` loop inside `add`: sequentially `add` each element. -/
def QueryBuilder.addList (q : List QVal) : List QVal → List QVal
  | [] => q
  | x :: xs => QueryBuilder.addList (QueryBuilder.add q x) xs
end

/-- JavaScript whitespace (`\s` of the regexp in `toString`, and the
character class trimmed by `String.prototype.trim`). -/
def jsWs (c : Char) : Bool :=
  c.val = 0x9 || c.val = 0xa || c.val = 0xb || c.val = 0xc || c.val = 0xd ||
  c.val = 0x20 || c.val = 0xa0 || c.val = 0x1680 ||
  (0x2000 ≤ c.val && c.val ≤ 0x200a) ||
  c.val = 0x2028 || c.val = 0x2029 || c.val = 0x202f || c.val = 0x205f ||
  c.val = 0x3000 || c.val = 0xfeff

/-- `replace(/\s\s+/g, ' ')` (line 41): each maximal run of two or more
whitespace characters becomes one space; an isolated whitespace
character is kept. Processed one character at a time: a whitespace
character followed by another whitespace character begins (or extends) a
run of length ≥ 2; the collapse of the tail starts with the collapsed
remainder of that run — exactly one character — which the longer run
again collapses to the single space. -/
def collapseWs : List Char → List Char
  | [] => []
  | c :: rest =>
    if jsWs c then
      match rest with
      | [] => [c]
      | d :: _ =>
        if jsWs d then ' ' :: (collapseWs rest).tail
        else c :: collapseWs rest
    else c :: collapseWs rest

/-- `replace(/(?:\r\n|\r|\n|\t)/g, '')` (line 42): every carriage
return, newline and tab character is deleted (matching `\r\n` as a pair
versus one character at a time removes the same set of characters). -/
def stripCtl (l : List Char) : List Char :=
  l.filter (fun c => !(c = '\r' || c = '\n' || c = '\t'))

/-- `String.prototype.trim` on a character list. -/
def jsTrim (l : List Char) : List Char :=
  ((l.dropWhile jsWs).reverse.dropWhile jsWs).reverse

mutual
/-- JavaScript string conversion of a `QVal`, as performed by
`Array.prototype.join(' ')` on the elements of `q`: a string converts to
itself, an array to its elements' conversions joined with `","`. -/
def QVal.jsString : QVal → String
  | .str s => s
  | .arr l => QVal.jsStringList l

/-- Comma-joined conversion of an array's elements. -/
def QVal.jsStringList : List QVal → String
  | [] => ""
  | [x] => x.jsString
  | x :: y :: xs => x.jsString ++ "," ++ QVal.jsStringList (y :: xs)
end

/-- `QueryBuilder.toString` (lines 39-44): `this.q.join(' ')`, then
collapse whitespace runs, then delete CR/LF/TAB, then trim. -/
def QueryBuilder.toString (q : List QVal) : String :=
  String.mk (jsTrim (stripCtl (collapseWs
    (String.intercalate " " (q.map QVal.jsString)).data)))

mutual
/-- Full recursive flattening of a `QVal` into its string leaves, in
order: the closed form of what `QueryBuilder.add` appends. -/
def QVal.flatten : QVal → List QVal
  | .str s => [.str s]
  | .arr l => QVal.flattenList l

/-- Flattening of a list of `QVal`s, concatenated in order. -/
def QVal.flattenList : List QVal → List QVal
  | [] => []
  | x :: xs => x.flatten ++ QVal.flattenList xs
end

/-- Modelled from the spec's words for comparison: `add` with "only one
level of flattening" — an array argument has its elements appended
as-is (inner arrays are not descended into), any other argument is
appended directly. This is what the claim asserts `add` does. -/
def QueryBuilder.addOneLevelSpec (q : List QVal) : QVal → List QVal
  | .arr l => q ++ l
  | x => q ++ [x]

/-- `noDoubleSpaceB l` holds when no two consecutive characters of `l`
are both the space character. -/
def noDoubleSpaceB : List Char → Bool
  | c :: d :: rest => !(c = ' ' && d = ' ') && noDoubleSpaceB (d :: rest)
  | _ => true

/-- The rendered-string hygiene property of the spec: no newline,
carriage-return or tab characters, no two consecutive spaces, and no
leading or trailing whitespace. -/
def cleanRender (l : List Char) : Bool :=
  l.all (fun c => !(c = '\r' || c = '\n' || c = '\t')) &&
  noDoubleSpaceB l &&
  (match l.head? with | none => true | some c => !jsWs c) &&
  (match l.getLast? with | none => true | some c => !jsWs c)

/-! ## Transaction (src/index.js lines 47-187) -/

/-- Configuration captured by `initCacheDB` (lines 218-224). -/
structure CacherCfg where
  url : String
  port : Nat
  db : Nat
deriving Repr

/-- One entry of the statement batch: `{statement, parameters}`
(lines 140-143). -/
structure Stmt where
  statement : String
  parameters : List (String × JVal)

/-- The `Transaction` instance state set up by the constructor
(lines 54-64). -/
structure Transaction where
  used : Bool
  auth : String
  cacher : Option CacherCfg
  cached : Bool
  cachePfx : String
  cacheKey : String
  cacheDuration : Nat
  transactionUrl : String
  statements : List Stmt

/-- `new Transaction(transactionUrl, auth, cacher)` (lines 54-64). -/
def Transaction.create (url auth : String) (cacher : Option CacherCfg) :
    Transaction :=
  { used := false, auth := auth, cacher := cacher, cached := false,
    cachePfx := "", cacheKey := "", cacheDuration := 0,
    transactionUrl := url, statements := [] }

/-- The property read `this.cachable` at line 111 of the source. No code
path ever assigns a `cachable` property — the constructor and
`cacheable()` assign `this.cached` — so the read yields `undefined`,
which is falsy: the test is false for every transaction. -/
def Transaction.cachable (_ : Transaction) : Bool := false

/-- `addQuery(queryBuilder, params)` (lines 136-145): throws
`Can't reuse transaction` once `used` is set, otherwise appends
`{statement: queryBuilder.toString(), parameters: params}`. -/
def Transaction.addQuery (t : Transaction) (qb : List QVal)
    (params : List (String × JVal)) : Except Rejection Transaction :=
  if t.used then .error (.err "Can't reuse transaction")
  else .ok { t with statements := t.statements ++
    [{ statement := QueryBuilder.toString qb, parameters := params }] }

/-- `cacheable(prefix, key, duration)` (lines 155-163). -/
def Transaction.cacheable (t : Transaction) (pfx key : String)
    (duration : Nat) : Except Rejection Transaction :=
  if t.cacher.isNone then
    .error (.err "Attempt to use cacher without calling initCacheDB()")
  else .ok { t with
    cached := true, cachePfx := pfx, cacheKey := key,
    cacheDuration := duration }

/-- An observable side effect of the protocol: an HTTP request (with the
statement batch as body for the initial POST), or a cache operation. -/
inductive Effect where
  | fetch (url : String) (method : String) (body : Option (List Stmt))
  | cacheSetPfx (p : String)
  | cacheSetData (key : String) (v : JVal) (d : Nat)

/-- Parsed JSON body of the database's response to the initial POST:
`{results, errors, commit}` (the transaction-endpoint envelope). -/
structure Body where
  errors : List JVal
  results : JVal
  commit : String

/-- One HTTP response as the code observes it. -/
structure Resp where
  status : Nat
  statusText : String
  body : Body

/-- The environment of an execution: the response to the initial batch
POST and the response to the commit POST. There is no field for the
rollback DELETE's response because the code never inspects it. -/
structure Env where
  initResp : Resp
  commitResp : Resp

/-- Result of running the protocol: the transaction afterwards, the
ordered side effects issued, and the promise's outcome. -/
structure ProcResult where
  tx : Transaction
  effects : List Effect
  outcome : Except Rejection JVal

/-- `ServerResponse.HTTP_OK` (external `fwsp-server-response` constant;
spec §4.2 fixes it to 200). -/
def HTTP_OK : Nat := 200

/-- `ServerResponse.HTTP_CREATED` (external constant; 201 per spec). -/
def HTTP_CREATED : Nat := 201

/-- `_processTransaction` (lines 73-127). The fetch chain is modelled as
a pure function of the transaction and the HTTP environment. `this.used
= true` (line 126) runs synchronously right after `fetch` is invoked,
before any response callback can fire, so the returned transaction has
`used = true` in every branch, whatever the responses are. -/
def Transaction.processTransaction (t : Transaction) (env : Env) :
    ProcResult :=
  let t' := { t with used := true }
  let postReq := Effect.fetch t.transactionUrl "post" (some t.statements)
  if env.initResp.status ≠ HTTP_OK ∧ env.initResp.status ≠ HTTP_CREATED then
    -- lines 89-95: best-effort DELETE to the same URL, then
    -- `throw new Error(res.statusText)`; the DELETE's outcome is not
    -- checked anywhere
    { tx := t',
      effects := [postReq, .fetch t.transactionUrl "delete" none],
      outcome := .error (.err env.initResp.statusText) }
  else
    let json := env.initResp.body
    if json.errors.length > 0 then
      -- lines 99-100: `throw json.errors`; no request to the commit URL
      { tx := t', effects := [postReq],
        outcome := .error (.thrownValue json.errors) }
    else
      -- lines 102-106: capture `results`, POST to `json.commit`
      let result := json.results
      let commitReq := Effect.fetch json.commit "post" none
      if env.commitResp.status = HTTP_OK then
        if t.cachable then
          -- dead branch: see `Transaction.cachable`
          if t.cacher.isNone then
            { tx := t', effects := [postReq, commitReq],
              outcome := .error
                (.err "Attempt to use cacher without calling initCacheDB()") }
          else
            -- lines 115-116 reference the unbound identifier `cacher`
            { tx := t', effects := [postReq, commitReq],
              outcome := .error (.refError "cacher") }
        else
          { tx := t', effects := [postReq, commitReq],
            outcome := .ok result }
      else
        { tx := t', effects := [postReq, commitReq],
          outcome := .error (.err "commit failed") }

/-- `execute()` (lines 170-186). When `this.cached` is set, line 173
evaluates `cacher.setCachePrefix(this.cachePrefix)`: the module's top
level binds only `Promise`, `fetch`, `Cacher`, `ServerResponse` and
`serverResponse` — there is no binding named `cacher` — so the bare
identifier throws `ReferenceError: cacher is not defined` inside the
promise executor, rejecting the promise before any cache read or any
network request. Otherwise `_processTransaction` runs. -/
def Transaction.execute (t : Transaction) (env : Env) : ProcResult :=
  if t.cached then
    { tx := t, effects := [], outcome := .error (.refError "cacher") }
  else
    t.processTransaction env

/-! ## Response helper `getSimpleData` (lines 250-260) -/

/-- One entry of the `results` array: `{columns, data}`. A field is
`none` when absent from the object (reading it yields `undefined`);
when present, each field is an array, the shape the database envelope
always carries. -/
structure Entry where
  columns : Option (List JVal)
  data : Option (List JVal)

/-- JavaScript property access `v[k]` for a string key: throws
`TypeError` on `null`/`undefined`, looks up the field on an object, and
yields `undefined` on anything else (arrays, numbers, booleans and
strings have no field named `row` or the like). -/
def jsProp (v : JVal) (k : String) : Except Rejection JVal :=
  match v with
  | .jnull => .error (.typeError "Cannot read properties of null")
  | .jundefined => .error (.typeError "Cannot read properties of undefined")
  | .jobj fs => .ok ((fs.lookup k).getD .jundefined)
  | _ => .ok .jundefined

/-- JavaScript index access `v[0]`: throws `TypeError` on
`null`/`undefined`, yields the first element (or `undefined`) of an
array, the `"0"` field of an object, the first character of a string,
and `undefined` on numbers and booleans. -/
def jsIndex0 (v : JVal) : Except Rejection JVal :=
  match v with
  | .jnull => .error (.typeError "Cannot read properties of null")
  | .jundefined => .error (.typeError "Cannot read properties of undefined")
  | .jarr l => .ok (l.headD .jundefined)
  | .jobj fs => .ok ((fs.lookup "0").getD .jundefined)
  | .jstr s => .ok (match s.data with
      | [] => .jundefined
      | c :: _ => .jstr (String.mk [c]))
  | _ => .ok .jundefined

/-- `getSimpleData(result)` (lines 250-260). `result = result[0]`; an
empty array gives `undefined` (falsy), a missing `data` field is falsy,
and `data.length === 0` all return the initial `ret = null`. With
exactly one column, the cell is read as
`(typeof result.data[0] === 'object') ? result.data[0].row[0]
: result.data[0][0]` — note `typeof` of an array is `'object'`, so
bare-array cells take the `.row[0]` branch. -/
def Neo4j.getSimpleData (result : List Entry) : Except Rejection JVal :=
  match result with
  | [] => .ok .jnull
  | e :: _ =>
    match e.data with
    | none => .ok .jnull
    | some ds =>
      if ds.length = 0 then .ok .jnull
      else
        match e.columns with
        | none => .error (.typeError "Cannot read properties of undefined")
        | some cols =>
          if cols.length = 1 then
            let d := ds.headD .jundefined
            if d.typeofStr = "object" then do
              let r ← jsProp d "row"
              jsIndex0 r
            else jsIndex0 d
          else .ok .jnull

/-! ## Property serializer `toProps` (lines 268-285) -/

/-- One iteration of the `forEach` in `toProps`: the `typeof` if-else
chain over the value. The third test in the source is
`typeof(obj[k]) === 'array'`; `typeof` never evaluates to `'array'`
(arrays are `'object'`), so that branch is kept here verbatim as a test
on `typeofStr` and is unreachable; anything that is not a string, a
number or a boolean falls to `throw new Error('property type not
supported')`. -/
def Neo4j.propString (k : String) (v : JVal) : Except Rejection String :=
  match v with
  | .jstr s => .ok (k ++ ":\"" ++ s ++ "\"")
  | .jnum n => .ok (k ++ ":" ++ toString n)
  | .jbool b => .ok (k ++ ":" ++ (if b then "true" else "false"))
  | v =>
    if v.typeofStr = "array" then .ok (k ++ ":[]")
    else .error (.err "property type not supported")

/-- `toProps(obj)` (lines 268-285): render each key in input key order
(`Object.keys` preserves insertion order for string keys), stopping at
the first throw, then `join(', ')`. -/
def Neo4j.toProps (obj : List (String × JVal)) : Except Rejection String :=
  (obj.mapM (fun kv => Neo4j.propString kv.1 kv.2)).map
    (String.intercalate ", ")

/-! ## Concrete fixtures and auxiliary predicates -/

/-- Adjacent-character relation used throughout the `toString` proofs:
the two characters are not both whitespace. -/
def WsRel (a b : Char) : Prop := ¬(jsWs a = true ∧ jsWs b = true)

/-- A concrete cache-eligible transaction: constructed with a cacher
configured and `cacheable("p", "k", 60)` applied. -/
def cachedTxEx : Transaction :=
  { used := false, auth := "a", cacher := some ⟨"r", 6379, 0⟩,
    cached := true, cachePfx := "p", cacheKey := "k", cacheDuration := 60,
    transactionUrl := "u", statements := [] }

/-- A database environment where every HTTP step succeeds: initial POST
answers 201 with an empty `errors` array and a commit URL, the commit
POST answers 200. -/
def goodEnvEx : Env :=
  ⟨⟨201, "Created", ⟨[], .jarr [.jstr "row"], "u/commit"⟩⟩,
   ⟨200, "OK", ⟨[], .jnull, ""⟩⟩⟩

/-! ## Whitespace lemmas for `QueryBuilder.toString` -/

theorem wsRel_of_left {a b : Char} (h : jsWs a = false) : WsRel a b := by
  intro hc
  rw [h] at hc
  exact absurd hc.1 (by simp)

theorem wsRel_of_right {a b : Char} (h : jsWs b = false) : WsRel a b := by
  intro hc
  rw [h] at hc
  exact absurd hc.2 (by simp)

theorem collapseWs_cons_not_ws (c : Char) (t : List Char)
    (h : jsWs c = false) : collapseWs (c :: t) = c :: collapseWs t := by
  cases t <;> simp [collapseWs, h]

theorem collapseWs_cons_cons_ws (c d : Char) (r : List Char)
    (hc : jsWs c = true) (hd : jsWs d = true) :
    collapseWs (c :: d :: r) = ' ' :: (collapseWs (d :: r)).tail := by
  simp [collapseWs, hc, hd]

theorem collapseWs_cons_cons_ws_not (c d : Char) (r : List Char)
    (hc : jsWs c = true) (hd : jsWs d = false) :
    collapseWs (c :: d :: r) = c :: collapseWs (d :: r) := by
  simp [collapseWs, hc, hd]

/-- After collapsing a list that starts with a whitespace character, the
second character of the result (if any) is not whitespace. -/
theorem collapseWs_second_not_ws :
    ∀ (l : List Char) (d : Char), l.head? = some d → jsWs d = true →
      ∀ y, (collapseWs l).tail.head? = some y → jsWs y = false := by
  intro l
  induction l with
  | nil => intro d hd; simp at hd
  | cons e r2 ih =>
    intro d hd hws y hy
    simp only [List.head?_cons, Option.some.injEq] at hd
    subst hd
    cases r2 with
    | nil =>
      simp [collapseWs, hws] at hy
    | cons f r3 =>
      by_cases hf : jsWs f = true
      · rw [collapseWs_cons_cons_ws _ _ _ hws hf] at hy
        simp only [List.tail_cons] at hy
        exact ih f rfl hf y hy
      · have hf' : jsWs f = false := Bool.eq_false_iff.mpr hf
        rw [collapseWs_cons_cons_ws_not _ _ _ hws hf'] at hy
        simp only [List.tail_cons] at hy
        rw [collapseWs_cons_not_ws _ _ hf'] at hy
        simp only [List.head?_cons, Option.some.injEq] at hy
        rw [← hy]
        exact hf'

/-- The collapsed list never has two adjacent whitespace characters. -/
theorem chain'_collapseWs (l : List Char) :
    List.Chain' WsRel (collapseWs l) := by
  induction l with
  | nil => simp [collapseWs]
  | cons c rest ih =>
    by_cases hc : jsWs c = true
    · cases rest with
      | nil => simp [collapseWs, hc, List.chain'_singleton]
      | cons d r3 =>
        by_cases hd : jsWs d = true
        · rw [collapseWs_cons_cons_ws _ _ _ hc hd]
          rw [List.chain'_cons']
          refine ⟨?_, ih.tail⟩
          intro y hy
          exact wsRel_of_right
            (collapseWs_second_not_ws (d :: r3) d rfl hd y hy)
        · have hd' : jsWs d = false := Bool.eq_false_iff.mpr hd
          rw [collapseWs_cons_cons_ws_not _ _ _ hc hd']
          rw [List.chain'_cons']
          refine ⟨?_, ih⟩
          intro y hy
          rw [collapseWs_cons_not_ws _ _ hd'] at hy
          have hyd : d = y := by simpa using hy
          rw [← hyd]
          exact wsRel_of_right hd'
    · have hc' : jsWs c = false := Bool.eq_false_iff.mpr hc
      rw [collapseWs_cons_not_ws _ _ hc']
      rw [List.chain'_cons']
      exact ⟨fun y _ => wsRel_of_left hc', ih⟩

/-- Characters deleted by `stripCtl` are whitespace, so deleting them
cannot make two whitespace characters adjacent: any two characters that
become neighbours were separated only by whitespace, and a list with no
adjacent whitespace pair has a non-whitespace character between any two
whitespace characters. -/
theorem chain'_filter_ws {p : Char → Bool}
    (hp : ∀ c, p c = false → jsWs c = true) :
    ∀ l : List Char, List.Chain' WsRel l →
      List.Chain' WsRel (l.filter p) := by
  intro l
  induction l with
  | nil => intro _; simp
  | cons c t ih =>
    intro h
    rw [List.filter_cons]
    by_cases hpc : p c = true
    · rw [if_pos hpc]
      rw [List.chain'_cons']
      refine ⟨?_, ih h.tail⟩
      intro y hy
      by_cases hc : jsWs c = true
      · cases t with
        | nil => simp at hy
        | cons d t2 =>
          have hcd : WsRel c d := (List.chain'_cons.mp h).1
          have hd : jsWs d = false := by
            rcases Bool.eq_false_or_eq_true (jsWs d) with h' | h'
            · exact absurd ⟨hc, h'⟩ hcd
            · exact h'
          have hpd : p d = true := by
            rcases Bool.eq_false_or_eq_true (p d) with h' | h'
            · exact h'
            · rw [hp d h'] at hd; simp at hd
          rw [List.filter_cons, if_pos hpd] at hy
          have hyd : d = y := by simpa using hy
          rw [← hyd]
          exact wsRel_of_right hd
      · exact wsRel_of_left (Bool.eq_false_iff.mpr hc)
    · rw [if_neg hpc]
      exact ih h.tail

theorem chain'_dropWhile {q : Char → Bool} :
    ∀ l : List Char, List.Chain' WsRel l →
      List.Chain' WsRel (l.dropWhile q) := by
  intro l
  induction l with
  | nil => intro _; simp
  | cons c t ih =>
    intro h
    rw [List.dropWhile_cons]
    by_cases hq : q c = true
    · rw [if_pos hq]; exact ih h.tail
    · rw [if_neg hq]; exact h

theorem chain'_reverse_wsRel {l : List Char}
    (h : List.Chain' WsRel l) : List.Chain' WsRel l.reverse := by
  rw [List.chain'_reverse]
  exact h.imp (fun a b hab => fun hc => hab ⟨hc.2, hc.1⟩)

theorem chain'_jsTrim {l : List Char}
    (h : List.Chain' WsRel l) : List.Chain' WsRel (jsTrim l) := by
  unfold jsTrim
  exact chain'_reverse_wsRel
    (chain'_dropWhile _ (chain'_reverse_wsRel (chain'_dropWhile _ h)))

theorem noDoubleSpaceB_of_chain' :
    ∀ l : List Char, List.Chain' WsRel l → noDoubleSpaceB l = true := by
  intro l
  induction l with
  | nil => intro _; rfl
  | cons c t ih =>
    intro h
    cases t with
    | nil => rfl
    | cons d r =>
      rw [noDoubleSpaceB, Bool.and_eq_true]
      refine ⟨?_, ih h.tail⟩
      have hcd : WsRel c d := (List.chain'_cons.mp h).1
      by_cases hsp : c = ' ' ∧ d = ' '
      · exfalso
        exact hcd ⟨by rw [hsp.1]; decide, by rw [hsp.2]; decide⟩
      · simp only [Bool.not_eq_true']
        rcases Bool.eq_false_or_eq_true
          (decide (c = ' ') && decide (d = ' ')) with h' | h'
        · exfalso
          simp only [Bool.and_eq_true, decide_eq_true_eq] at h'
          exact hsp h'
        · exact h'

theorem mem_jsTrim {c : Char} {l : List Char} (h : c ∈ jsTrim l) :
    c ∈ l := by
  unfold jsTrim at h
  rw [List.mem_reverse] at h
  have h2 := (List.dropWhile_suffix jsWs).mem h
  rw [List.mem_reverse] at h2
  exact (List.dropWhile_suffix jsWs).mem h2

theorem head_dropWhile_head? {q : Char → Bool} {l : List Char} {c : Char}
    (h : (l.dropWhile q).head? = some c) : q c = false := by
  have hne : l.dropWhile q ≠ [] := by
    intro hn; rw [hn] at h; simp at h
  have := List.head_dropWhile_not q l hne
  rw [List.head?_eq_head hne] at h
  simp only [Option.some.injEq] at h
  rw [← h]
  exact this

theorem head_jsTrim_not_ws {l : List Char} {c : Char}
    (h : (jsTrim l).head? = some c) : jsWs c = false := by
  unfold jsTrim at h
  rw [List.head?_reverse] at h
  have hY : ((l.dropWhile jsWs).reverse.dropWhile jsWs) <:+
      (l.dropWhile jsWs).reverse := List.dropWhile_suffix jsWs
  obtain ⟨A, hA⟩ := hY
  have hZ : ((l.dropWhile jsWs).reverse).getLast? = some c := by
    rw [← hA, List.getLast?_append, h]
    rfl
  rw [List.getLast?_reverse] at hZ
  exact head_dropWhile_head? hZ

theorem getLast_jsTrim_not_ws {l : List Char} {c : Char}
    (h : (jsTrim l).getLast? = some c) : jsWs c = false := by
  unfold jsTrim at h
  rw [List.getLast?_reverse] at h
  exact head_dropWhile_head? h

/-- The full `toString` pipeline yields a hygienic string for every
input character list. -/
theorem cleanRender_pipeline (l0 : List Char) :
    cleanRender (jsTrim (stripCtl (collapseWs l0))) = true := by
  have h1 : List.Chain' WsRel (collapseWs l0) := chain'_collapseWs l0
  have hp : ∀ c : Char, (!(c = '\r' || c = '\n' || c = '\t')) = false →
      jsWs c = true := by
    intro c h
    simp only [Bool.not_eq_false', Bool.or_eq_true, decide_eq_true_eq] at h
    rcases h with h | h
    rcases h with h | h
    all_goals rw [h]; decide
  have h2 : List.Chain' WsRel (stripCtl (collapseWs l0)) :=
    chain'_filter_ws hp _ h1
  have h3 : List.Chain' WsRel (jsTrim (stripCtl (collapseWs l0))) :=
    chain'_jsTrim h2
  rw [cleanRender]
  rw [Bool.and_eq_true, Bool.and_eq_true, Bool.and_eq_true]
  refine ⟨⟨⟨?_, ?_⟩, ?_⟩, ?_⟩
  · rw [List.all_eq_true]
    intro x hx
    have hx2 := mem_jsTrim hx
    have := List.mem_filter.mp hx2
    simpa using this.2
  · exact noDoubleSpaceB_of_chain' _ h3
  · cases hh : (jsTrim (stripCtl (collapseWs l0))).head? with
    | none => rfl
    | some c =>
      simp only [Bool.not_eq_true']
      exact head_jsTrim_not_ws hh
  · cases hh : (jsTrim (stripCtl (collapseWs l0))).getLast? with
    | none => rfl
    | some c =>
      simp only [Bool.not_eq_true']
      exact getLast_jsTrim_not_ws hh

/-! ## Transaction protocol lemmas -/

/-- Every branch of the protocol returns the transaction with
`used = true` and nothing else changed. -/
theorem processTransaction_tx (t : Transaction) (env : Env) :
    (t.processTransaction env).tx = { t with used := true } := by
  unfold Transaction.processTransaction
  dsimp only
  repeat' split
  all_goals rfl

/-! ## Flattening lemmas for `QueryBuilder.add` -/

mutual
theorem add_flattens_aux (q : List QVal) (v : QVal) :
    QueryBuilder.add q v = q ++ v.flatten := by
  cases v with
  | str s => rfl
  | arr l => rw [QueryBuilder.add, QVal.flatten]; exact addList_flattens_aux q l

theorem addList_flattens_aux (q : List QVal) (l : List QVal) :
    QueryBuilder.addList q l = q ++ QVal.flattenList l := by
  cases l with
  | nil => simp [QueryBuilder.addList, QVal.flattenList]
  | cons x xs =>
    rw [QueryBuilder.addList, QVal.flattenList, add_flattens_aux,
      addList_flattens_aux, List.append_assoc]
end

/-! ## Claims -/

/-- Claim C1: a Transaction is single-use. Whatever the HTTP environment
(any status, any body — i.e. before, and independently of, any response
being processed, and whether the execution later succeeds or fails), the
transaction that comes out of the network protocol has `used = true`,
and `addQuery` on it fails with the reuse error. -/
theorem transaction_single_use (t : Transaction) (env : Env)
    (qb : List QVal) (params : List (String × JVal)) :
    (t.processTransaction env).tx.used = true ∧
    (t.processTransaction env).tx.addQuery qb params =
      .error (.err "Can't reuse transaction") := by
  rw [processTransaction_tx]
  exact ⟨rfl, rfl⟩

/-- Claim C2 (code bug evaluation): a cache-eligible transaction — here
the reachable state produced by `cacheable("p","k",60)` on a transaction
constructed with a cacher — does not attempt a cache read at all:
`execute()` rejects with `ReferenceError: cacher is not defined` (the
cache-read line references the unbound module identifier `cacher`),
issuing no cache operation and no network request, instead of reading
the cache and falling through to the network protocol. -/
theorem execute_cached_rejects_reference_error :
    (Transaction.create "u" "a" (some ⟨"r", 6379, 0⟩)).cacheable "p" "k" 60 =
      .ok cachedTxEx ∧
    cachedTxEx.execute goodEnvEx =
      { tx := cachedTxEx, effects := [],
        outcome := .error (.refError "cacher") } :=
  ⟨rfl, rfl⟩

/-- Claim C3 (code bug evaluation): for the cache-eligible transaction
and the all-success environment, `execute()` rejects with the
`ReferenceError` before the protocol can run; and even the protocol
itself, had it been reached, resolves with `results` but writes nothing
to the cache, because line 111 tests the never-assigned property
`cachable` (`cachedTxEx.cached` is true while `cachedTxEx.cachable` is
false). The non-cache-eligible path does resolve with the `results`
value unchanged. -/
theorem cache_eligible_commit_skips_cache_write :
    cachedTxEx.execute goodEnvEx =
      { tx := cachedTxEx, effects := [],
        outcome := .error (.refError "cacher") } ∧
    cachedTxEx.cached = true ∧
    cachedTxEx.cachable = false ∧
    (cachedTxEx.processTransaction goodEnvEx).outcome =
      .ok (.jarr [.jstr "row"]) ∧
    ((cachedTxEx.processTransaction goodEnvEx).effects.filter
      (fun e => match e with
        | .cacheSetPfx _ => true
        | .cacheSetData .. => true
        | _ => false)) = [] ∧
    ((Transaction.create "u" "a" none).processTransaction goodEnvEx).outcome =
      .ok (.jarr [.jstr "row"]) :=
  ⟨rfl, rfl, rfl, rfl, rfl, rfl⟩

/-- Claim C4: when the initial batch POST answers any status other than
200 or 201, the protocol issues exactly the initial POST and a DELETE to
the same transaction endpoint, and rejects with the original status
text. The environment says nothing about the DELETE's response — the
code never checks it, and the conclusion holds for every environment
with such a status. -/
theorem initial_post_failure_rollback (t : Transaction) (env : Env)
    (h1 : env.initResp.status ≠ 200) (h2 : env.initResp.status ≠ 201) :
    (t.processTransaction env).effects =
      [.fetch t.transactionUrl "post" (some t.statements),
       .fetch t.transactionUrl "delete" none] ∧
    (t.processTransaction env).outcome =
      .error (.err env.initResp.statusText) := by
  unfold Transaction.processTransaction
  rw [if_pos ⟨h1, h2⟩]
  exact ⟨rfl, rfl⟩

/-- Witness for C4 at status 404 / "Not Found". -/
theorem initial_post_failure_rollback_witness :
    ((Transaction.create "http://db/data/transaction" "au" none).processTransaction
        ⟨⟨404, "Not Found", ⟨[], .jnull, ""⟩⟩, ⟨200, "OK", ⟨[], .jnull, ""⟩⟩⟩).effects =
      [.fetch "http://db/data/transaction" "post" (some []),
       .fetch "http://db/data/transaction" "delete" none] ∧
    ((Transaction.create "http://db/data/transaction" "au" none).processTransaction
        ⟨⟨404, "Not Found", ⟨[], .jnull, ""⟩⟩, ⟨200, "OK", ⟨[], .jnull, ""⟩⟩⟩).outcome =
      .error (.err "Not Found") :=
  initial_post_failure_rollback _ _ (by decide) (by decide)

/-- Claim C5: when the initial POST succeeds (200 or 201) but the parsed
body carries a non-empty `errors` array, the protocol rejects with that
array thrown verbatim, and the only request issued is the initial POST —
in particular no POST to the commit URL. -/
theorem cypher_errors_reject (t : Transaction) (env : Env)
    (hst : env.initResp.status = 200 ∨ env.initResp.status = 201)
    (he : env.initResp.body.errors ≠ []) :
    (t.processTransaction env).outcome =
      .error (.thrownValue env.initResp.body.errors) ∧
    (t.processTransaction env).effects =
      [.fetch t.transactionUrl "post" (some t.statements)] := by
  unfold Transaction.processTransaction
  rw [if_neg (by rw [HTTP_OK, HTTP_CREATED]; rcases hst with h | h <;> simp [h])]
  rw [if_pos (show env.initResp.body.errors.length > 0 from
    List.length_pos.mpr he)]
  exact ⟨rfl, rfl⟩

/-- Witness for C5 with `errors: [{code: "X"}]`. -/
theorem cypher_errors_reject_witness :
    ((Transaction.create "u" "a" none).processTransaction
        ⟨⟨200, "OK", ⟨[.jobj [("code", .jstr "X")]], .jnull, "cu"⟩⟩,
         ⟨200, "OK", ⟨[], .jnull, ""⟩⟩⟩).outcome =
      .error (.thrownValue [.jobj [("code", .jstr "X")]]) ∧
    ((Transaction.create "u" "a" none).processTransaction
        ⟨⟨200, "OK", ⟨[.jobj [("code", .jstr "X")]], .jnull, "cu"⟩⟩,
         ⟨200, "OK", ⟨[], .jnull, ""⟩⟩⟩).effects =
      [.fetch "u" "post" (some [])] :=
  cypher_errors_reject _ _ (Or.inl rfl) (List.cons_ne_nil _ _)

/-- Claim C6 (code bug evaluation): a single-column entry whose first
data cell is a bare array makes `getSimpleData` throw a `TypeError`
instead of returning the first cell: `typeof` of an array is
`"object"`, so the `.row[0]` branch is taken and `.row` is `undefined`.
The `{row: [...]}`-wrapped shape does return the cell. -/
theorem getSimpleData_bare_array_cell_raises :
    Neo4j.getSimpleData [⟨some [.jstr "n"], some [.jarr [.jnum 42]]⟩] =
      .error (.typeError "Cannot read properties of undefined") ∧
    Neo4j.getSimpleData
      [⟨some [.jstr "n"], some [.jobj [("row", .jarr [.jnum 42])]]⟩] =
      .ok (.jnum 42) ∧
    JVal.typeofStr (.jarr [.jnum 42]) = "object" :=
  ⟨rfl, rfl, rfl⟩

/-- Claim C7: for every builder state (hence for every sequence of
fragments added), the rendered string has no carriage-return, newline or
tab character, no two consecutive spaces, and no leading or trailing
whitespace — the four conjuncts bundled in `cleanRender`. -/
theorem queryBuilder_render_clean (q : List QVal) :
    cleanRender (QueryBuilder.toString q).data = true :=
  cleanRender_pipeline _

/-- Claim C8 counterexample: one level of flattening would append the
inner array `[str "a"]` itself, but `add` recurses and appends the
string leaf, so a sequence containing a sequence is flattened, not
rejected or preserved. -/
theorem add_one_level_counterexample :
    QueryBuilder.add [] (.arr [.arr [.str "a"]]) = [.str "a"] ∧
    QueryBuilder.addOneLevelSpec [] (.arr [.arr [.str "a"]]) =
      [.arr [.str "a"]] ∧
    ([QVal.str "a"] : List QVal) ≠ [.arr [.str "a"]] :=
  ⟨rfl, rfl, by simp⟩

/-- Claim C8 as amended: `add` accepts a string fragment or a sequence
and flattens sequences recursively to arbitrary depth, appending the
string leaves to the internal list in order, with no validation. -/
theorem add_flattens_recursively (q : List QVal) (v : QVal) :
    QueryBuilder.add q v = q ++ v.flatten :=
  add_flattens_aux q v

/-- Claim C9 (code bug evaluation): an array value makes `toProps` throw
`property type not supported` instead of rendering an empty list
literal, because `typeof` of an array is `"object"`, never `"array"`.
Strings are quoted, numbers render literally, and the pairs join with
a comma and space in input key order. -/
theorem toProps_array_value_raises :
    Neo4j.toProps [("grades", .jarr [])] =
      .error (.err "property type not supported") ∧
    Neo4j.toProps [("name", .jstr "A"), ("grade", .jnum 9)] =
      .ok "name:\"A\", grade:9" ∧
    JVal.typeofStr (.jarr []) = "object" :=
  ⟨rfl, rfl, rfl⟩

/-- Claim C10: when the first entry is present with non-empty data but
its columns array does not have length one, `getSimpleData` returns
`null`, for every data payload — no cell is ever inspected. -/
theorem getSimpleData_multi_column_null (cols ds : List JVal)
    (rest : List Entry) (h1 : cols.length ≠ 1) (h2 : ds ≠ []) :
    Neo4j.getSimpleData (⟨some cols, some ds⟩ :: rest) = .ok .jnull := by
  unfold Neo4j.getSimpleData
  dsimp only
  rw [if_neg (fun h => h2 (List.length_eq_zero.mp h))]
  rw [if_neg h1]

/-- Witness for C10 with two columns and one data row. -/
theorem getSimpleData_multi_column_null_witness :
    Neo4j.getSimpleData
      [⟨some [.jstr "a", .jstr "b"], some [.jarr [.jnum 1, .jnum 2]]⟩] =
      .ok .jnull :=
  getSimpleData_multi_column_null [.jstr "a", .jstr "b"]
    [.jarr [.jnum 1, .jnum 2]] [] (by decide) (List.cons_ne_nil _ _)
